import Mathlib

/-!
# Verification of the OPM preprocessing utilities

A shallow embedding, over exact rational arithmetic, of the two functional
units of `opm/utils.py`:

* the patch-size resolver `get_patch_size_in_microns` (source lines 251-342),
  which parses a heterogeneous size specification (string or sequence) and
  reconciles micron-marked dimensions against slide metadata;
* the mask pipeline (`basic_pen_mask`, `basic_hsv_mask`, `hybrid_mask`,
  `trim_mask`, source lines 118-168) together with the label-map helper
  `map_values` (source lines 76-87).

Modelling conventions:

* Python floats are modelled by `ℚ`.  Every numeric computation exercised by
  the statements below (`float` of short decimal literals, division by values
  such as `0.5`, `round`) is exact in IEEE double precision as well, so the
  rational model agrees with the Python computation on these inputs.
* Python strings are modelled by `String` / `List Char`; the source only
  manipulates ASCII text.
* Fallible Python code is modelled in `Except PyErr`; each constructor of
  `PyErr` records one concrete `raise` site or built-in exception.
* numpy arrays are modelled as functions from coordinates; 8-bit channel
  values are read modulo 256 exactly as a `uint8` buffer stores them.
* Slide file I/O is out of scope (spec's external collaborator): the
  property mapping that `tiffslide.open_slide(...).properties` would return
  is passed to the resolver directly, and the `verbose` prints are dropped.
* The image-library collaborators (`rgb2hsv`, `remove_small_objects`,
  `skimage.filters.rank.maximum`, `disk`) are embedded from their documented
  behaviour: HSV conversion formulas, removal of connected components
  (4-connectivity, the default) strictly smaller than `min_size`, and the
  local maximum over the disk footprint clipped to the image bounds.
-/

namespace OPM

/-! ## Python primitives used by the resolver -/

/-- Python `str.isnumeric` on the ASCII strings the source handles:
true exactly for a non-empty all-digit string. -/
def pyIsNumeric (cs : List Char) : Bool :=
  !cs.isEmpty && cs.all Char.isDigit

/-- Value of an all-digit string, as Python `int(...)` reads it. -/
def digitsVal (cs : List Char) : ℕ :=
  cs.foldl (fun a c => 10 * a + (c.toNat - 48)) 0

/-- Python `float(...)` on a plain decimal literal (optional sign, integer
part, optional fractional part; at least one digit overall).  `none` models
the `ValueError` that `float` raises on a malformed literal.  Scientific
notation, infinities and NaN never occur in the inputs the source feeds to
`float`, so they are not modelled. -/
def pyFloatOfChars (cs : List Char) : Option ℚ :=
  let sb : ℚ × List Char :=
    match cs with
    | '-' :: rest => (-1, rest)
    | '+' :: rest => (1, rest)
    | _ => (1, cs)
  let ip := sb.2.takeWhile Char.isDigit
  let rest := sb.2.dropWhile Char.isDigit
  match rest with
  | [] => if ip.isEmpty then none else some (sb.1 * (digitsVal ip : ℚ))
  | '.' :: fp =>
      if fp.all Char.isDigit && !(ip.isEmpty && fp.isEmpty) then
        some (sb.1 * ((digitsVal ip : ℚ) + (digitsVal fp : ℚ) / (10 ^ fp.length)))
      else none
  | _ => none

/-- Python `round` to an integer: nearest integer, ties to even. -/
def pyRound (q : ℚ) : ℤ :=
  let f := ⌊q⌋
  if q - f < 1 / 2 then f
  else if 1 / 2 < q - f then f + 1
  else if f % 2 = 0 then f else f + 1

/-- Python `s.split(sep)` for a one-character separator: split at every
occurrence, keeping empty pieces. -/
def splitOnChar (sep : Char) : List Char → List (List Char)
  | [] => [[]]
  | c :: rest =>
      let r := splitOnChar sep rest
      if c = sep then [] :: r
      else
        match r with
        | [] => [[c]]
        | h :: t => (c :: h) :: t

/-- Python `s.replace("mu", "")`: delete the non-overlapping occurrences of
`"mu"`, scanning left to right. -/
def removeMu : List Char → List Char
  | 'm' :: 'u' :: rest => removeMu rest
  | c :: rest => c :: removeMu rest
  | [] => []

/-- Python `s.replace("m", "")`. -/
def removeM (cs : List Char) : List Char :=
  cs.filter (fun c => !(c = 'm'))

/-- Python `"mu" in s`. -/
def hasMu : List Char → Bool
  | 'm' :: 'u' :: _ => true
  | _ :: rest => hasMu rest
  | [] => false

/-- The test `("m" in patch_size[i]) or ("mu" in patch_size[i])`
(source line 298). -/
def micronMarked (cs : List Char) : Bool :=
  cs.contains 'm' || hasMu cs

/-! ## The resolver's data -/

/-- One element of the token list `patch_size`: for a string specification
every token is a string; a list/tuple specification may also hold Python
ints and floats. -/
inductive Tok where
  | str (s : String)
  | int (n : ℤ)
  | real (q : ℚ)
deriving DecidableEq

/-- The `patch_size_from_config` argument.  `other` stands for any value
that is neither a string nor a list/tuple (for instance the integer 42),
which the source rejects by type. -/
inductive SizeSpec where
  | str (s : String)
  | seq (ts : List Tok)
  | other

/-- The exceptions the embedded code can raise.
`valueErrorSeparator` and `valueErrorType` are the two explicit
`raise ValueError(...)` statements (source lines 283-290); these two are the
spec's `ParseError`.  `valueErrorFloat` is the `ValueError` escaping from
`float(...)` on a malformed token; `indexError` is the write
`return_patch_size[i]` for `i ≥ 2`; `typeError` is a call that misses
required positional arguments. -/
inductive PyErr where
  | valueErrorSeparator
  | valueErrorType
  | valueErrorFloat
  | indexError
  | typeError
deriving DecidableEq

/-- The test `str(patch_size[i]).isnumeric()` (source line 295): `str` of a Python
int is all digits exactly when the int is non-negative, and `str` of a
Python float always contains a dot or an exponent, hence is never numeric. -/
def tokStrIsNumeric : Tok → Bool
  | .str s => pyIsNumeric s.toList
  | .int n => decide (0 ≤ n)
  | .real _ => false

/-- Value of `int(patch_size[i])` on a token that passed `tokStrIsNumeric`
(the `real` case is unreachable). -/
def tokIntVal : Tok → ℤ
  | .str s => (digitsVal s.toList : ℤ)
  | .int n => n
  | .real _ => 0

/-- The slide's property mapping (string keys to microns-per-pixel style
numeric values), as `tiffslide.open_slide(path).properties` exposes it. -/
abbrev Metadata := List (String × ℚ)

/-- The loop `for property in keys: if property in metadata: magnification =
metadata[property]; break` - the first key present wins. -/
def lookupMag (md : Metadata) : List String → Option ℚ
  | [] => none
  | k :: ks =>
      match md.lookup k with
      | some v => some v
      | none => lookupMag md ks

/-- The X-axis key priority list (source line 307):
`tiffslide.PROPERTY_NAME_MPP_X` is the string `"tiffslide.mpp-x"`. -/
def xKeys : List String :=
  [r"tiffslide.mpp-x", r"tiff.XResolution", r"XResolution"]

/-- The Y-axis key priority list (source line 313). -/
def yKeys : List String :=
  [r"tiffslide.mpp-y", r"tiff.YResolution", r"YResolution"]

/-- Removal of all spaces and square brackets from a string specification
(source lines 272-274). -/
def stripSpec (cs : List Char) : List Char :=
  cs.filter (fun c => !(c = ' ' || c = '[' || c = ']'))

/-- The split cascade of the string branch (source lines 276-286), applied
to the already-stripped character list: split on `','`; while the result is
a single piece retry with `'x'`, `'X'`, `'*'`; a single piece after all four
is the explicit `raise ValueError` for a missing separator. -/
def tokenize (s : List Char) : Except PyErr (List (List Char)) :=
  let ps := splitOnChar ',' s
  let ps := if ps.length = 1 then splitOnChar 'x' s else ps
  let ps := if ps.length = 1 then splitOnChar 'X' s else ps
  let ps := if ps.length = 1 then splitOnChar '*' s else ps
  if ps.length = 1 then Except.error PyErr.valueErrorSeparator
  else Except.ok ps

/-- The write `return_patch_size[i] = v` on the two-slot list
`return_patch_size = [0, 0]`; any index beyond the two slots raises
`IndexError`. -/
def writeSlot (slots : ℚ × ℚ) (i : ℕ) (v : ℚ) : Except PyErr (ℚ × ℚ) :=
  if i = 0 then Except.ok (v, slots.2)
  else if i = 1 then Except.ok (slots.1, v)
  else Except.error PyErr.indexError

/-- One iteration of the resolution loop (source lines 293-333) for token
number `i`.  The state carries the two result slots and
`magnification_prev`.  Branches, in source order: a `str(...)`-numeric token
is written as `int(...)`; a string token with a micron marker resolves
`magnification` from the metadata (X keys for `i = 0`; Y keys for `i = 1`
with fallback to `magnification_prev` when the lookup failed or produced
`-1`), parses the number left after stripping `"mu"` then `"m"`, and writes
`round(microns / magnification)` only when `magnification > 0` (updating
`magnification_prev`); any other string token is written as `float(...)`;
non-string tokens that failed the numeric test are skipped. -/
def stepTok (md : Metadata) (st : ℚ × ℚ × ℚ) (i : ℕ) (t : Tok) :
    Except PyErr (ℚ × ℚ × ℚ) :=
  let slots : ℚ × ℚ := (st.1, st.2.1)
  let prev : ℚ := st.2.2
  if tokStrIsNumeric t then
    match writeSlot slots i ((tokIntVal t : ℤ) : ℚ) with
    | Except.error e => Except.error e
    | Except.ok s => Except.ok (s.1, s.2, prev)
  else
    match t with
    | Tok.str tok =>
        let cs := tok.toList
        if micronMarked cs then
          let magPrev : ℚ × ℚ :=
            if i = 0 then
              match lookupMag md xKeys with
              | some v => (v, v)
              | none => (-1, prev)
            else if i = 1 then
              (match lookupMag md yKeys with
               | some v => if v = -1 then prev else v
               | none => prev,
               prev)
            else (-1, prev)
          match pyFloatOfChars (removeM (removeMu cs)) with
          | none => Except.error PyErr.valueErrorFloat
          | some microns =>
              if 0 < magPrev.1 then
                match writeSlot slots i ((pyRound (microns / magPrev.1) : ℤ) : ℚ) with
                | Except.error e => Except.error e
                | Except.ok s => Except.ok (s.1, s.2, magPrev.1)
              else Except.ok (slots.1, slots.2, magPrev.2)
        else
          match pyFloatOfChars cs with
          | none => Except.error PyErr.valueErrorFloat
          | some q =>
              match writeSlot slots i q with
              | Except.error e => Except.error e
              | Except.ok s => Except.ok (s.1, s.2, prev)
    | _ => Except.ok (slots.1, slots.2, prev)

/-- The `for i in range(len(patch_size))` loop over the token list, started
from `return_patch_size = [0, 0]` and `magnification_prev = -1`, followed by
the final `return return_patch_size`. -/
def runLoop (md : Metadata) (toks : List Tok) : Except PyErr (ℚ × ℚ) :=
  match toks.enum.foldlM (fun st it => stepTok md st it.1 it.2)
      ((0 : ℚ), (0 : ℚ), (-1 : ℚ)) with
  | Except.error e => Except.error e
  | Except.ok st => Except.ok (st.1, st.2.1)

/-- Embedding of `get_patch_size_in_microns` (source lines 251-342): dispatch on the type
of the specification, tokenize string specifications, then run the
resolution loop. -/
def get_patch_size_in_microns (md : Metadata) (spec : SizeSpec) :
    Except PyErr (ℚ × ℚ) :=
  match spec with
  | SizeSpec.str s =>
      match tokenize (stripSpec s.toList) with
      | Except.error e => Except.error e
      | Except.ok ps => runLoop md (ps.map (fun cs => Tok.str (String.mk cs)))
  | SizeSpec.seq ts => runLoop md ts
  | SizeSpec.other => Except.error PyErr.valueErrorType

/-- True exactly when a string specification, after stripping, contains none of
the four recognized separator characters. -/
def noSeparator (cs : List Char) : Bool :=
  !cs.contains ',' && !cs.contains 'x' && !cs.contains 'X' && !cs.contains '*'

/-- The two parse errors of the spec's `ParseError` taxonomy entry: the
explicit `raise ValueError` statements for a separator-less string and for
an unsupported specification type. -/
def isParseError : PyErr → Bool
  | PyErr.valueErrorSeparator => true
  | PyErr.valueErrorType => true
  | _ => false

/-! ## The mask pipeline's data

An image is a height, a width, and an (r, g, b) triple for every
coordinate pair; channel values are read modulo 256, exactly as the
`uint8` buffer of the numpy array stores them.  A mask is a function from
coordinates to `Bool`. -/

structure Image where
  H : ℕ
  W : ℕ
  pix : ℕ → ℕ → ℕ × ℕ × ℕ

/-- The red channel `image[:, :, RGB_RED_CHANNEL]` (channel constant 0). -/
def red (img : Image) (p : ℕ × ℕ) : ℕ := (img.pix p.1 p.2).1 % 256

/-- The green channel `image[:, :, RGB_GREEN_CHANNEL]` (channel constant 1). -/
def green (img : Image) (p : ℕ × ℕ) : ℕ := (img.pix p.1 p.2).2.1 % 256

/-- The blue channel `image[:, :, RGB_BLUE_CHANNEL]` (channel constant 2). -/
def blue (img : Image) (p : ℕ × ℕ) : ℕ := (img.pix p.1 p.2).2.2 % 256

/-- The constant `MIN_COLOR_DIFFERENCE = 40` (source line 15). -/
def MIN_COLOR_DIFFERENCE : ℕ := 40

/-- The constant `MIN_SAT = 20 / 255` (source line 21). -/
def MIN_SAT : ℚ := 20 / 255

/-- The constant `MIN_VAL = 30 / 255` (source line 22). -/
def MIN_VAL : ℚ := 30 / 255

/-- The value channel of `rgb2hsv(image)`: the image is first scaled to
floats in `[0, 1]` (division by 255 for `uint8` input), and V is the
channel-wise maximum. -/
def vChan (img : Image) (p : ℕ × ℕ) : ℚ :=
  (max (red img p) (max (green img p) (blue img p)) : ℕ) / 255

/-- The `delta` of the HSV conversion: channel-wise maximum minus minimum in
the scaled image. -/
def deltaChan (img : Image) (p : ℕ × ℕ) : ℚ :=
  ((max (red img p) (max (green img p) (blue img p)) -
      min (red img p) (min (green img p) (blue img p)) : ℕ)) / 255

/-- The saturation channel of `rgb2hsv(image)`: `delta / V`, forced to `0`
wherever `delta = 0` (skimage sets `out_s[delta == 0] = 0`, which also
covers the `V = 0` division). -/
def sChan (img : Image) (p : ℕ × ℕ) : ℚ :=
  if deltaChan img p = 0 then 0 else deltaChan img p / vChan img p

/-- Embedding of `basic_hsv_mask` (source lines 139-149): `true` where the saturation
channel is at most `MIN_SAT` or the value channel is at most `MIN_VAL`. -/
def basic_hsv_mask (img : Image) (p : ℕ × ℕ) : Bool :=
  decide (sChan img p ≤ MIN_SAT) || decide (vChan img p ≤ MIN_VAL)

/-- Wrap-around `uint8` subtraction `a - b` (wrap-around modulo 256), for channel
values below 256. -/
def sub8 (a b : ℕ) : ℕ := (a + 256 - b) % 256

/-- The pen-colour test `bitwise_or(green_mask, blue_mask)` (source lines
119-131): the green channel strictly exceeds the blue one and their
`uint8` difference exceeds `MIN_COLOR_DIFFERENCE`, or symmetrically with
blue over green. -/
def masked_pen (img : Image) (p : ℕ × ℕ) : Bool :=
  (decide (blue img p < green img p) &&
      decide (MIN_COLOR_DIFFERENCE < sub8 (green img p) (blue img p))) ||
    (decide (green img p < blue img p) &&
      decide (MIN_COLOR_DIFFERENCE < sub8 (blue img p) (green img p)))

/-- The coordinate grid of an image. -/
def grid (img : Image) : Finset (ℕ × ℕ) :=
  Finset.range img.H ×ˢ Finset.range img.W

/-- The in-grid pixels flagged by the pen-colour test. -/
def penPts (img : Image) : Finset (ℕ × ℕ) :=
  (grid img).filter (fun p => masked_pen img p = true)

/-- 4-adjacency of grid coordinates: `connectivity = 1`, the
`remove_small_objects` default. -/
def adj4 (p q : ℕ × ℕ) : Bool :=
  (decide (p.1 = q.1) && (decide (p.2 + 1 = q.2) || decide (q.2 + 1 = p.2))) ||
    (decide (p.2 = q.2) && (decide (p.1 + 1 = q.1) || decide (q.1 + 1 = p.1)))

/-- One step of connected-component growth: adjoin every flagged pixel
4-adjacent to the current set. -/
def expand (img : Image) (s : Finset (ℕ × ℕ)) : Finset (ℕ × ℕ) :=
  s ∪ (penPts img).filter (fun q => ∃ p ∈ s, adj4 p q = true)

/-- The connected component of `p` in the pen-colour mask: saturate the
growth step, `H * W` iterations being enough to reach every pixel of the
component. -/
def comp (img : Image) (p : ℕ × ℕ) : Finset (ℕ × ℕ) :=
  (expand img)^[img.H * img.W] {p}

/-- Embedding of `remove_small_objects(masked_pen, pen_size_threshold)` (source line
132, default `connectivity = 1`): a flagged pixel survives exactly when
its connected component counts at least `pen_size_threshold` pixels
(removal is strictly "smaller than `min_size`"). -/
def remove_small_objects (img : Image) (thr : ℕ) (p : ℕ × ℕ) : Bool :=
  masked_pen img p && decide (thr ≤ (comp img p).card)

/-- Squared Euclidean distance between coordinates. -/
def dist2 (p q : ℕ × ℕ) : ℤ :=
  ((p.1 : ℤ) - q.1) ^ 2 + ((p.2 : ℤ) - q.2) ^ 2

/-- Embedding of `maximum(where(new_mask_image, 1, 0), disk(pen_mask_expansion))`
followed by `astype(bool)` (source lines 134-136): the rank maximum filter
takes, at every pixel, the maximum of the 0/1 input over the disk
footprint `X² + Y² ≤ r²` clipped to the image bounds, so the output is
`true` exactly where some surviving pixel lies within distance `r`. -/
def basic_pen_mask (img : Image) (thr r : ℕ) (p : ℕ × ℕ) : Bool :=
  decide (∃ q ∈ grid img,
    dist2 p q ≤ (r : ℤ) ^ 2 ∧ remove_small_objects img thr q = true)

/-- A Python-level call `basic_pen_mask(image, *args)`: the source
signature (line 118) has two further required positional parameters after
`image`, so any other arity raises `TypeError`. -/
def basic_pen_mask_call (img : Image) (args : List ℕ) :
    Except PyErr ((ℕ × ℕ) → Bool) :=
  match args with
  | [thr, r] => Except.ok (basic_pen_mask img thr r)
  | _ => Except.error PyErr.typeError

/-- Embedding of `hybrid_mask` (source lines 152-153):
`~np.bitwise_or(basic_hsv_mask(image), basic_pen_mask(image))` - note
that the inner call `basic_pen_mask(image)` passes no threshold or
expansion argument. -/
def hybrid_mask (img : Image) : Except PyErr ((ℕ × ℕ) → Bool) :=
  match basic_pen_mask_call img [] with
  | Except.error e => Except.error e
  | Except.ok penm => Except.ok (fun p => !(basic_hsv_mask img p || penm p))

/-- Model of `ndarray.copy()`: a fresh buffer holding the same entries. -/
def npCopy {α : Type} (m : (ℕ × ℕ) → α) : (ℕ × ℕ) → α := m

/-- Boolean-mask subscript assignment `arr[sel] = v`. -/
def npPutMask {α : Type} (m : (ℕ × ℕ) → α) (sel : (ℕ × ℕ) → Bool) (v : α) :
    (ℕ × ℕ) → α :=
  fun p => if sel p then v else m p

/-- Embedding of `trim_mask` (source lines 156-168): copy the mask, evaluate
`mask_func(image)`, assign `background_value` under the boolean index, and
return the copy.  The second component of the result is the input buffer
as observable after the call: the source's only assignment targets
`mask.copy()`, so the input comes back untouched. -/
def trim_mask {α : Type} (image : Image) (mask : (ℕ × ℕ) → α)
    (background_value : α) (mask_func : Image → (ℕ × ℕ) → Bool) :
    ((ℕ × ℕ) → α) × ((ℕ × ℕ) → α) :=
  let mask_copy := npCopy mask
  let masked_image := mask_func image
  let mask_copy := npPutMask mask_copy masked_image background_value
  (mask_copy, mask)

/-- Equality-mask subscript assignment `template[image == key] = value`. -/
def npPutEq {α : Type} [DecidableEq α] (template : (ℕ × ℕ) → α)
    (image : (ℕ × ℕ) → α) (key value : α) : (ℕ × ℕ) → α :=
  fun p => if image p = key then value else template p

/-- Embedding of `map_values` (source lines 76-87): copy the image into `template`,
then for every dictionary pair assign the value under the index
`image == key` - every comparison reads the original `image`, not the
part-way-updated `template`.  The dictionary is the list of key-value
pairs in iteration order (a Python dict's keys are distinct).  The second
component of the result is the input buffer as observable after the call:
the assignments target only the copy. -/
def map_values {α : Type} [DecidableEq α] (image : (ℕ × ℕ) → α)
    (dictionary : List (α × α)) : ((ℕ × ℕ) → α) × ((ℕ × ℕ) → α) :=
  let template := npCopy image
  let template := dictionary.foldl (fun t kv => npPutEq t image kv.1 kv.2) template
  (template, image)

/-- First-match association lookup: how a Python dict with these (distinct)
keys answers `dictionary[k]`. -/
def assocLookup {α : Type} [DecidableEq α] : List (α × α) → α → Option α
  | [], _ => none
  | kv :: rest, a => if kv.1 = a then some kv.2 else assocLookup rest a

/-- A step between pen-flagged pixels: the target is a flagged in-grid
pixel 4-adjacent to the source. -/
def penStep (img : Image) (a b : ℕ × ℕ) : Prop :=
  b ∈ penPts img ∧ adj4 a b = true

/-- Connectivity in the pen-colour mask: the reflexive-transitive closure
of `penStep`. -/
def penReach (img : Image) (a b : ℕ × ℕ) : Prop :=
  Relation.ReflTransGen (penStep img) a b

/-- A 1-by-1 pure-white RGB image. -/
def white1 : Image := ⟨1, 1, fun _ _ => (255, 255, 255)⟩

/-- A 1-by-1 pure-black RGB image. -/
def black1 : Image := ⟨1, 1, fun _ _ => (0, 0, 0)⟩

/-- A 1-by-2 label map holding the label 0 at `(0, 0)` and 1 at `(0, 1)`
(concrete input for the `map_values` swap witness). -/
def labelMap1 : (ℕ × ℕ) → ℤ := fun p => if p = (0, 0) then 0 else 1

/-- The swapping dictionary `{0: 1, 1: 0}`. -/
def swapDict : List (ℤ × ℤ) := [(0, 1), (1, 0)]

/-! ## Helper lemmas for the resolver -/

theorem toList_mk (cs : List Char) : (String.mk cs).toList = cs := rfl

theorem splitOnChar_ne_nil (c : Char) (cs : List Char) : splitOnChar c cs ≠ [] := by
  induction cs with
  | nil => simp [splitOnChar]
  | cons a rest ih =>
      simp only [splitOnChar]
      split
      · simp
      · cases h : splitOnChar c rest with
        | nil => simp
        | cons hh tt => simp [h]

theorem splitOnChar_length_one (c : Char) (cs : List Char) :
    (splitOnChar c cs).length = 1 ↔ cs.contains c = false := by
  induction cs with
  | nil => simp [splitOnChar]
  | cons a rest ih =>
      simp only [splitOnChar]
      by_cases hac : a = c
      · subst hac
        have hne := splitOnChar_ne_nil a rest
        constructor
        · intro hlen
          exfalso
          rw [if_pos rfl] at hlen
          simp only [List.length_cons] at hlen
          exact hne (List.length_eq_zero.1 (by omega))
        · intro hcont
          exfalso
          simp [List.contains_cons] at hcont
      · rw [if_neg hac]
        have hca : (c == a) = false := beq_eq_false_iff_ne.2 fun hc => hac hc.symm
        cases h : splitOnChar c rest with
        | nil => exact absurd h (splitOnChar_ne_nil c rest)
        | cons hh tt =>
            rw [h] at ih
            simp only [h, List.length_cons, List.contains_cons, hca, Bool.false_or]
            simpa using ih

theorem tokenize_of_noSeparator (s : List Char) (h : noSeparator s = true) :
    tokenize s = Except.error PyErr.valueErrorSeparator := by
  simp only [noSeparator, Bool.and_eq_true, Bool.not_eq_true'] at h
  obtain ⟨⟨⟨h1, h2⟩, h3⟩, h4⟩ := h
  simp [tokenize, (splitOnChar_length_one _ _).2 h1, (splitOnChar_length_one _ _).2 h2,
    (splitOnChar_length_one _ _).2 h3, (splitOnChar_length_one _ _).2 h4]

theorem tokenize_of_separator (s : List Char) (h : noSeparator s = false) :
    ∃ ts, tokenize s = Except.ok ts := by
  simp only [noSeparator, Bool.and_eq_false_iff, Bool.not_eq_false'] at h
  by_cases h1 : s.contains ',' = true
  · have hl : ¬ (splitOnChar ',' s).length = 1 := fun hlen => by
      have hc := (splitOnChar_length_one _ _).1 hlen
      rw [h1] at hc
      exact Bool.noConfusion hc
    refine ⟨splitOnChar ',' s, ?_⟩
    simp [tokenize, hl]
  · have l1 : (splitOnChar ',' s).length = 1 :=
      (splitOnChar_length_one _ _).2 (by simpa using h1)
    by_cases h2 : s.contains 'x' = true
    · have hl : ¬ (splitOnChar 'x' s).length = 1 := fun hlen => by
        have hc := (splitOnChar_length_one _ _).1 hlen
        rw [h2] at hc
        exact Bool.noConfusion hc
      refine ⟨splitOnChar 'x' s, ?_⟩
      simp [tokenize, l1, hl]
    · have l2 : (splitOnChar 'x' s).length = 1 :=
        (splitOnChar_length_one _ _).2 (by simpa using h2)
      by_cases h3 : s.contains 'X' = true
      · have hl : ¬ (splitOnChar 'X' s).length = 1 := fun hlen => by
          have hc := (splitOnChar_length_one _ _).1 hlen
          rw [h3] at hc
          exact Bool.noConfusion hc
        refine ⟨splitOnChar 'X' s, ?_⟩
        simp [tokenize, l1, l2, hl]
      · have l3 : (splitOnChar 'X' s).length = 1 :=
          (splitOnChar_length_one _ _).2 (by simpa using h3)
        have h4 : s.contains '*' = true := by
          rcases h with ((hc | hc) | hc) | hc
          · exact absurd hc h1
          · exact absurd hc h2
          · exact absurd hc h3
          · exact hc
        have hl : ¬ (splitOnChar '*' s).length = 1 := fun hlen => by
          have hc := (splitOnChar_length_one _ _).1 hlen
          rw [h4] at hc
          exact Bool.noConfusion hc
        refine ⟨splitOnChar '*' s, ?_⟩
        simp [tokenize, l1, l2, l3, hl]

theorem tokenize_error_noSeparator (s : List Char) (e : PyErr)
    (h : tokenize s = Except.error e) : noSeparator s = true := by
  by_cases hs : noSeparator s = true
  · exact hs
  · obtain ⟨ts, hts⟩ := tokenize_of_separator s (by simpa using hs)
    rw [hts] at h
    exact Except.noConfusion h

theorem tokenize_error_val (s : List Char) (e : PyErr)
    (h : tokenize s = Except.error e) : e = PyErr.valueErrorSeparator := by
  rw [tokenize_of_noSeparator s (tokenize_error_noSeparator s e h)] at h
  exact (Except.error.inj h).symm

theorem writeSlot_error (slots : ℚ × ℚ) (i : ℕ) (v : ℚ) (e : PyErr)
    (h : writeSlot slots i v = Except.error e) : e = PyErr.indexError := by
  simp only [writeSlot] at h
  split at h
  · exact Except.noConfusion h
  · split at h
    · exact Except.noConfusion h
    · exact (Except.error.inj h).symm

theorem stepTok_error (md : Metadata) (st : ℚ × ℚ × ℚ) (i : ℕ) (t : Tok) (e : PyErr)
    (h : stepTok md st i t = Except.error e) :
    e = PyErr.valueErrorFloat ∨ e = PyErr.indexError := by
  cases t <;> simp only [stepTok] at h <;> repeat' split at h
  all_goals
    first
    | exact Except.noConfusion h
    | exact Or.inl (Except.error.inj h).symm
    | (rename_i heq
       exact Or.inr ((Except.error.inj h) ▸ writeSlot_error _ _ _ _ heq))

theorem foldlM_stepTok_error (md : Metadata) (l : List (ℕ × Tok)) (st : ℚ × ℚ × ℚ)
    (e : PyErr)
    (h : l.foldlM (fun st it => stepTok md st it.1 it.2) st = Except.error e) :
    e = PyErr.valueErrorFloat ∨ e = PyErr.indexError := by
  induction l generalizing st with
  | nil => exact Except.noConfusion h
  | cons it rest ih =>
      rw [List.foldlM_cons] at h
      cases hs : stepTok md st it.1 it.2 with
      | error e2 =>
          rw [hs] at h
          have he : e2 = e := Except.error.inj h
          exact he ▸ stepTok_error md st it.1 it.2 e2 hs
      | ok st2 =>
          rw [hs] at h
          exact ih st2 h

theorem runLoop_error (md : Metadata) (toks : List Tok) (e : PyErr)
    (h : runLoop md toks = Except.error e) :
    e = PyErr.valueErrorFloat ∨ e = PyErr.indexError := by
  simp only [runLoop] at h
  split at h
  · rename_i e1 heq
    have he : e1 = e := Except.error.inj h
    exact he ▸ foldlM_stepTok_error md _ _ e1 heq
  · exact Except.noConfusion h

theorem stepTok_micron0 (md : Metadata) (st : ℚ × ℚ × ℚ) (tok : String)
    (μ gx : ℚ) (hn : pyIsNumeric tok.toList = false)
    (hm : micronMarked tok.toList = true)
    (hf : pyFloatOfChars (removeM (removeMu tok.toList)) = some μ)
    (hx : lookupMag md xKeys = some gx) (hpos : 0 < gx) :
    stepTok md st 0 (Tok.str tok) =
      Except.ok (((pyRound (μ / gx) : ℤ) : ℚ), st.2.1, gx) := by
  simp only [String.toList] at hn hm hf
  simp [stepTok, tokStrIsNumeric, hn, hm, hx, hf, hpos, writeSlot]

theorem stepTok_micron0_nometa (md : Metadata) (st : ℚ × ℚ × ℚ) (tok : String)
    (μ : ℚ) (hn : pyIsNumeric tok.toList = false)
    (hm : micronMarked tok.toList = true)
    (hf : pyFloatOfChars (removeM (removeMu tok.toList)) = some μ)
    (hx : lookupMag md xKeys = none) :
    stepTok md st 0 (Tok.str tok) = Except.ok (st.1, st.2.1, st.2.2) := by
  have hneg : ¬ (0 : ℚ) < -1 := by norm_num
  simp only [String.toList] at hn hm hf
  simp [stepTok, tokStrIsNumeric, hn, hm, hx, hf, hneg]

theorem stepTok_micron1_some (md : Metadata) (st : ℚ × ℚ × ℚ) (tok : String)
    (μ gy : ℚ) (hn : pyIsNumeric tok.toList = false)
    (hm : micronMarked tok.toList = true)
    (hf : pyFloatOfChars (removeM (removeMu tok.toList)) = some μ)
    (hy : lookupMag md yKeys = some gy) (hpos : 0 < gy) :
    stepTok md st 1 (Tok.str tok) =
      Except.ok (st.1, ((pyRound (μ / gy) : ℤ) : ℚ), gy) := by
  have hne : ¬ (gy = -1) := by
    intro hgy
    rw [hgy] at hpos
    norm_num at hpos
  simp only [String.toList] at hn hm hf
  simp [stepTok, tokStrIsNumeric, hn, hm, hy, hf, hpos, hne, writeSlot]

theorem stepTok_micron1_none (md : Metadata) (st : ℚ × ℚ × ℚ) (tok : String)
    (μ : ℚ) (hn : pyIsNumeric tok.toList = false)
    (hm : micronMarked tok.toList = true)
    (hf : pyFloatOfChars (removeM (removeMu tok.toList)) = some μ)
    (hy : lookupMag md yKeys = none) (hpos : 0 < st.2.2) :
    stepTok md st 1 (Tok.str tok) =
      Except.ok (st.1, ((pyRound (μ / st.2.2) : ℤ) : ℚ), st.2.2) := by
  simp only [String.toList] at hn hm hf
  simp [stepTok, tokStrIsNumeric, hn, hm, hy, hf, hpos, writeSlot]

theorem stepTok_micron1_none_nonpos (md : Metadata) (st : ℚ × ℚ × ℚ)
    (tok : String) (μ : ℚ) (hn : pyIsNumeric tok.toList = false)
    (hm : micronMarked tok.toList = true)
    (hf : pyFloatOfChars (removeM (removeMu tok.toList)) = some μ)
    (hy : lookupMag md yKeys = none) (hpos : ¬ 0 < st.2.2) :
    stepTok md st 1 (Tok.str tok) = Except.ok (st.1, st.2.1, st.2.2) := by
  simp only [String.toList] at hn hm hf
  simp [stepTok, tokStrIsNumeric, hn, hm, hy, hf, hpos]

theorem stepTok_plain0 (md : Metadata) (st : ℚ × ℚ × ℚ) (tok : String) (q : ℚ)
    (hn : pyIsNumeric tok.toList = false)
    (hm : micronMarked tok.toList = false)
    (hf : pyFloatOfChars tok.toList = some q) :
    stepTok md st 0 (Tok.str tok) = Except.ok (q, st.2.1, st.2.2) := by
  simp only [String.toList] at hn hm hf
  simp [stepTok, tokStrIsNumeric, hn, hm, hf, writeSlot]

theorem stepTok_plain1 (md : Metadata) (st : ℚ × ℚ × ℚ) (tok : String) (q : ℚ)
    (hn : pyIsNumeric tok.toList = false)
    (hm : micronMarked tok.toList = false)
    (hf : pyFloatOfChars tok.toList = some q) :
    stepTok md st 1 (Tok.str tok) = Except.ok (st.1, q, st.2.2) := by
  simp only [String.toList] at hn hm hf
  simp [stepTok, tokStrIsNumeric, hn, hm, hf, writeSlot]

theorem stepTok_real (md : Metadata) (st : ℚ × ℚ × ℚ) (i : ℕ) (q : ℚ) :
    stepTok md st i (Tok.real q) = Except.ok (st.1, st.2.1, st.2.2) := by
  simp [stepTok, tokStrIsNumeric]

theorem stepTok_nonneg_int0 (md : Metadata) (st : ℚ × ℚ × ℚ) (n : ℤ)
    (hn : 0 ≤ n) :
    stepTok md st 0 (Tok.int n) = Except.ok ((n : ℚ), st.2.1, st.2.2) := by
  simp [stepTok, tokStrIsNumeric, tokIntVal, writeSlot, hn]

theorem stepTok_nonneg_int1 (md : Metadata) (st : ℚ × ℚ × ℚ) (n : ℤ)
    (hn : 0 ≤ n) :
    stepTok md st 1 (Tok.int n) = Except.ok (st.1, (n : ℚ), st.2.2) := by
  simp [stepTok, tokStrIsNumeric, tokIntVal, writeSlot, hn]

theorem runLoop_cons2 (md : Metadata) (t0 t1 : Tok) (s1 s2 : ℚ × ℚ × ℚ)
    (h0 : stepTok md (0, 0, -1) 0 t0 = Except.ok s1)
    (h1 : stepTok md s1 1 t1 = Except.ok s2) :
    runLoop md [t0, t1] = Except.ok (s2.1, s2.2.1) := by
  simp [runLoop, List.enum, List.enumFrom, List.foldlM, h0, h1, Except.bind, bind, pure, Except.pure]

/-! ## Claim theorems for the patch-size resolver -/

/-- C6: `get_patch_size_in_microns` returns (256, 256) for the inputs
"256,256", [256, 256], "256x256", "256X256" and "256*256", whatever the
slide metadata holds: the four delimited string forms parse identically. -/
theorem resolver_pixel_specs (md : Metadata) :
    get_patch_size_in_microns md (SizeSpec.str (r"256,256")) = Except.ok (256, 256) ∧
      get_patch_size_in_microns md (SizeSpec.seq [Tok.int 256, Tok.int 256]) =
        Except.ok (256, 256) ∧
      get_patch_size_in_microns md (SizeSpec.str (r"256x256")) = Except.ok (256, 256) ∧
      get_patch_size_in_microns md (SizeSpec.str (r"256X256")) = Except.ok (256, 256) ∧
      get_patch_size_in_microns md (SizeSpec.str (r"256*256")) = Except.ok (256, 256) :=
  ⟨rfl, rfl, rfl, rfl, rfl⟩

/-- C2: for a two-token micron-marked string specification, each dimension
resolves to `round(microns / mpp)`: the X-axis mpp is the first hit in the
priority list `xKeys` (named mpp-x property, then tiff.XResolution, then
XResolution), the Y-axis mpp is the first hit in `yKeys`, and when no
Y-axis key is present the most recently resolved X-axis value is reused. -/
theorem resolver_micron_resolution (md : Metadata) (s : String) (a b : List Char)
    (μa μb gx gy : ℚ)
    (htok : tokenize (stripSpec s.toList) = Except.ok [a, b])
    (hna : pyIsNumeric a = false) (hma : micronMarked a = true)
    (hfa : pyFloatOfChars (removeM (removeMu a)) = some μa)
    (hnb : pyIsNumeric b = false) (hmb : micronMarked b = true)
    (hfb : pyFloatOfChars (removeM (removeMu b)) = some μb)
    (hgx : lookupMag md xKeys = some gx) (hgxpos : 0 < gx)
    (hgy : lookupMag md yKeys = some gy ∧ 0 < gy ∨
        lookupMag md yKeys = none ∧ gy = gx) :
    get_patch_size_in_microns md (SizeSpec.str s) =
      Except.ok (((pyRound (μa / gx) : ℤ) : ℚ), ((pyRound (μb / gy) : ℤ) : ℚ)) := by
  have htok2 : tokenize (stripSpec s.data) = Except.ok [a, b] := htok
  have hget : get_patch_size_in_microns md (SizeSpec.str s) =
      runLoop md [Tok.str (String.mk a), Tok.str (String.mk b)] := by
    simp [get_patch_size_in_microns, htok2]
  rw [hget]
  have h0 := stepTok_micron0 md (0, 0, -1) (String.mk a) μa gx hna hma hfa hgx hgxpos
  rcases hgy with ⟨hy, hpos⟩ | ⟨hy, heq⟩
  · have h1 := stepTok_micron1_some md (((pyRound (μa / gx) : ℤ) : ℚ), (0 : ℚ), gx)
        (String.mk b) μb gy hnb hmb hfb hy hpos
    exact runLoop_cons2 md _ _ _ _ h0 h1
  · rw [heq]
    have h1 := stepTok_micron1_none md (((pyRound (μa / gx) : ℤ) : ℚ), (0 : ℚ), gx)
        (String.mk b) μb hnb hmb hfb hy hgxpos
    exact runLoop_cons2 md _ _ _ _ h0 h1

/-- Witness for C2: "100m,100m" with mpp-x = mpp-y = 0.5 resolves to
(200, 200). -/
theorem resolver_micron_resolution_witness :
    get_patch_size_in_microns
        [(r"tiffslide.mpp-x", (1 : ℚ)/2), (r"tiffslide.mpp-y", (1 : ℚ)/2)]
        (SizeSpec.str (r"100m,100m")) = Except.ok (200, 200) := by
  have hf : pyFloatOfChars (removeM (removeMu ['1', '0', '0', 'm'])) = some 100 := by
    have hs : removeM (removeMu ['1', '0', '0', 'm']) = ['1', '0', '0'] := by decide
    rw [hs]
    simp +decide [pyFloatOfChars, digitsVal, List.takeWhile, List.dropWhile]
  have h := resolver_micron_resolution
      [(r"tiffslide.mpp-x", (1 : ℚ)/2), (r"tiffslide.mpp-y", (1 : ℚ)/2)]
      (r"100m,100m") ['1', '0', '0', 'm'] ['1', '0', '0', 'm'] 100 100
      ((1 : ℚ)/2) ((1 : ℚ)/2)
      rfl (by decide) (by decide) hf (by decide) (by decide) hf
      rfl (by norm_num)
      (Or.inl ⟨rfl, by norm_num⟩)
  rw [h]
  norm_num [pyRound]

/-- C3: a two-token micron-marked string specification whose metadata holds
none of the recognized mpp/resolution keys resolves to (0, 0) without
raising. -/
theorem resolver_micron_missing_metadata (md : Metadata) (s : String)
    (a b : List Char) (μa μb : ℚ)
    (htok : tokenize (stripSpec s.toList) = Except.ok [a, b])
    (hna : pyIsNumeric a = false) (hma : micronMarked a = true)
    (hfa : pyFloatOfChars (removeM (removeMu a)) = some μa)
    (hnb : pyIsNumeric b = false) (hmb : micronMarked b = true)
    (hfb : pyFloatOfChars (removeM (removeMu b)) = some μb)
    (hx : lookupMag md xKeys = none) (hy : lookupMag md yKeys = none) :
    get_patch_size_in_microns md (SizeSpec.str s) = Except.ok (0, 0) := by
  have htok2 : tokenize (stripSpec s.data) = Except.ok [a, b] := htok
  have hget : get_patch_size_in_microns md (SizeSpec.str s) =
      runLoop md [Tok.str (String.mk a), Tok.str (String.mk b)] := by
    simp [get_patch_size_in_microns, htok2]
  rw [hget]
  have h0 := stepTok_micron0_nometa md (0, 0, -1) (String.mk a) μa hna hma hfa hx
  have h1 := stepTok_micron1_none_nonpos md (0, 0, -1) (String.mk b) μb hnb hmb hfb hy
      (by norm_num)
  exact runLoop_cons2 md _ _ _ _ h0 h1

/-- Witness for C3: "100m,100m" against an empty property mapping yields
(0, 0), not an exception. -/
theorem resolver_micron_missing_metadata_witness :
    get_patch_size_in_microns [] (SizeSpec.str (r"100m,100m")) = Except.ok (0, 0) := by
  have hf : pyFloatOfChars (removeM (removeMu ['1', '0', '0', 'm'])) = some 100 := by
    have hs : removeM (removeMu ['1', '0', '0', 'm']) = ['1', '0', '0'] := by decide
    rw [hs]
    simp +decide [pyFloatOfChars, digitsVal, List.takeWhile, List.dropWhile]
  exact resolver_micron_missing_metadata [] (r"100m,100m")
      ['1', '0', '0', 'm'] ['1', '0', '0', 'm'] 100 100
      rfl (by decide) (by decide) hf (by decide) (by decide) hf rfl rfl

/-- C5: the resolver raises one of its two parse errors (the spec's
`ParseError`) exactly when the specification is of an unsupported type
(neither string nor list/tuple, e.g. the integer 42, modelled by
`SizeSpec.other`) or is a string that, after stripping spaces and brackets,
contains none of the separators ',', 'x', 'X', '*'.  Failures of `float` on
a malformed token and index errors are distinct exceptions and are never
these two. -/
theorem resolver_parse_error_iff (md : Metadata) (spec : SizeSpec) :
    (∃ e, get_patch_size_in_microns md spec = Except.error e ∧ isParseError e = true) ↔
      (spec = SizeSpec.other ∨
        ∃ s, spec = SizeSpec.str s ∧ noSeparator (stripSpec s.toList) = true) := by
  constructor
  · rintro ⟨e, he, hpe⟩
    cases spec with
    | other => exact Or.inl rfl
    | seq ts =>
        exfalso
        have he2 : runLoop md ts = Except.error e := he
        rcases runLoop_error md ts e he2 with h | h <;>
          (subst h; simp [isParseError] at hpe)
    | str s =>
        refine Or.inr ⟨s, rfl, ?_⟩
        cases htk : tokenize (stripSpec s.toList) with
        | error e0 => exact tokenize_error_noSeparator _ _ htk
        | ok ps =>
            exfalso
            simp only [get_patch_size_in_microns] at he
            rw [htk] at he
            have he2 : runLoop md (ps.map (fun cs => Tok.str (String.mk cs))) =
                Except.error e := he
            rcases runLoop_error md _ e he2 with h | h <;>
              (subst h; simp [isParseError] at hpe)
  · rintro (rfl | ⟨s, rfl, hns⟩)
    · exact ⟨PyErr.valueErrorType, rfl, rfl⟩
    · refine ⟨PyErr.valueErrorSeparator, ?_, rfl⟩
      have ht := tokenize_of_noSeparator _ hns
      simp only [get_patch_size_in_microns]
      rw [ht]

/-- C7 counterexample: the pair specification [256.5, 100] resolves to
(0, 100), not to (256.5, 100): a Python float in a list specification is
neither `str(...).isnumeric()` nor a string instance, so its dimension is
silently left at the default 0. -/
theorem resolver_real_token_counterexample :
    get_patch_size_in_microns []
        (SizeSpec.seq [Tok.real ((513 : ℚ)/2), Tok.int 100]) =
      Except.ok (0, 100) ∧ (0 : ℚ) ≠ (513 : ℚ)/2 := by
  constructor
  · have h0 := stepTok_real [] (0, 0, -1) 0 ((513 : ℚ)/2)
    have h1 := stepTok_nonneg_int1 [] (0, 0, -1) 100 (by norm_num)
    exact runLoop_cons2 [] _ _ _ _ h0 h1
  · norm_num

/-- C7, amended: a dimension token that is neither numeric nor
micron-marked contributes its `float(...)` value without rounding only when
the token is a string (as every token of a string specification is); a
non-string token failing the numeric test - e.g. a Python float in a
list specification - is skipped and leaves its slot at the default 0. -/
theorem resolver_plain_real_string_tokens (md : Metadata) (s : String)
    (a b : List Char) (qa qb : ℚ)
    (htok : tokenize (stripSpec s.toList) = Except.ok [a, b])
    (hna : pyIsNumeric a = false) (hma : micronMarked a = false)
    (hfa : pyFloatOfChars a = some qa)
    (hnb : pyIsNumeric b = false) (hmb : micronMarked b = false)
    (hfb : pyFloatOfChars b = some qb) :
    get_patch_size_in_microns md (SizeSpec.str s) = Except.ok (qa, qb) ∧
      ∀ x : ℚ, get_patch_size_in_microns md
          (SizeSpec.seq [Tok.real x, Tok.int 100]) = Except.ok (0, 100) := by
  constructor
  · have htok2 : tokenize (stripSpec s.data) = Except.ok [a, b] := htok
    have hget : get_patch_size_in_microns md (SizeSpec.str s) =
        runLoop md [Tok.str (String.mk a), Tok.str (String.mk b)] := by
      simp [get_patch_size_in_microns, htok2]
    rw [hget]
    have h0 := stepTok_plain0 md (0, 0, -1) (String.mk a) qa hna hma hfa
    have h1 := stepTok_plain1 md (qa, (0 : ℚ), (-1 : ℚ)) (String.mk b) qb hnb hmb hfb
    exact runLoop_cons2 md _ _ _ _ h0 h1
  · intro x
    have h0 := stepTok_real md (0, 0, -1) 0 x
    have h1 := stepTok_nonneg_int1 md (0, 0, -1) 100 (by norm_num)
    exact runLoop_cons2 md _ _ _ _ h0 h1

/-- Witness for the amended C7: "256.5,100.5" resolves to (256.5, 100.5)
(both tokens parsed as plain reals, no rounding), while a list holding the
Python float 7/3 and the int 100 resolves to (0, 100). -/
theorem resolver_plain_real_string_tokens_witness :
    get_patch_size_in_microns [] (SizeSpec.str (r"256.5,100.5")) =
        Except.ok ((513 : ℚ)/2, (201 : ℚ)/2) ∧
      get_patch_size_in_microns []
          (SizeSpec.seq [Tok.real ((7 : ℚ)/3), Tok.int 100]) = Except.ok (0, 100) := by
  have hfa : pyFloatOfChars ['2', '5', '6', '.', '5'] = some ((513 : ℚ)/2) := by
    simp +decide [pyFloatOfChars, digitsVal, List.takeWhile, List.dropWhile]
    norm_num
  have hfb : pyFloatOfChars ['1', '0', '0', '.', '5'] = some ((201 : ℚ)/2) := by
    simp +decide [pyFloatOfChars, digitsVal, List.takeWhile, List.dropWhile]
    norm_num
  have h := resolver_plain_real_string_tokens [] (r"256.5,100.5")
      ['2', '5', '6', '.', '5'] ['1', '0', '0', '.', '5']
      ((513 : ℚ)/2) ((201 : ℚ)/2)
      rfl (by decide) (by decide) hfa (by decide) (by decide) hfb
  exact ⟨h.1, h.2 ((7 : ℚ)/3)⟩

/-! ## Claim theorems for the mask pipeline -/

/-- C1: `hybrid_mask` raises `TypeError` on every image, because its body
calls `basic_pen_mask(image)` without the two required positional arguments
`pen_size_threshold` and `pen_mask_expansion`; it therefore never returns
the negated OR of the two masks. -/
theorem hybrid_mask_always_type_error (img : Image) :
    hybrid_mask img = Except.error PyErr.typeError := rfl

/-- C4 counterexample: on a pure-white pixel `basic_hsv_mask` returns
`true`, not `false`: white's saturation is 0 ≤ MIN_SAT, and the mask is a
disjunction, even though white's value exceeds MIN_VAL. -/
theorem basic_hsv_mask_white_counterexample :
    basic_hsv_mask white1 (0, 0) = true ∧ ¬ vChan white1 (0, 0) ≤ MIN_VAL := by
  constructor
  · norm_num [basic_hsv_mask, sChan, vChan, deltaChan, red, green, blue, white1,
      MIN_SAT, MIN_VAL]
  · norm_num [vChan, red, green, blue, white1, MIN_VAL]

/-- C4, amended: `basic_hsv_mask` is true exactly where saturation ≤ 20/255
or value ≤ 30/255; it is true on a pure black pixel, and also true on a
pure white pixel (saturation 0 meets the first disjunct even though white's
value exceeds 30/255). -/
theorem basic_hsv_mask_characterization :
    (∀ (img : Image) (p : ℕ × ℕ),
        basic_hsv_mask img p = true ↔
          (sChan img p ≤ 20 / 255 ∨ vChan img p ≤ 30 / 255)) ∧
      basic_hsv_mask black1 (0, 0) = true ∧ basic_hsv_mask white1 (0, 0) = true := by
  refine ⟨fun img p => ?_, ?_, ?_⟩
  · simp [basic_hsv_mask, MIN_SAT, MIN_VAL]
  · norm_num [basic_hsv_mask, sChan, vChan, deltaChan, red, green, blue, black1,
      MIN_SAT, MIN_VAL]
  · norm_num [basic_hsv_mask, sChan, vChan, deltaChan, red, green, blue, white1,
      MIN_SAT, MIN_VAL]

/-- C9: `trim_mask` leaves the input mask unchanged (the second component
of the embedded result is the input buffer after the call) and returns a
copy equal to `background_value` where `mask_func(image)` is true and to
the original mask entry everywhere else. -/
theorem trim_mask_spec {α : Type} (image : Image) (mask : (ℕ × ℕ) → α)
    (background_value : α) (mask_func : Image → (ℕ × ℕ) → Bool) :
    (trim_mask image mask background_value mask_func).2 = mask ∧
      ∀ p, (trim_mask image mask background_value mask_func).1 p =
        if mask_func image p then background_value else mask p :=
  ⟨rfl, fun _ => rfl⟩

/-! ## Helper lemmas for `map_values` -/

theorem assocLookup_eq_none {α : Type} [DecidableEq α] (d : List (α × α)) (a : α)
    (h : a ∉ d.map Prod.fst) : assocLookup d a = none := by
  induction d with
  | nil => rfl
  | cons kv rest ih =>
      simp only [List.map_cons, List.mem_cons] at h
      push_neg at h
      obtain ⟨h1, h2⟩ := h
      have hk : ¬ (kv.1 = a) := fun hh => h1 hh.symm
      simp only [assocLookup, if_neg hk]
      exact ih h2

theorem foldl_npPutEq {α : Type} [DecidableEq α] (image : (ℕ × ℕ) → α) :
    ∀ (d : List (α × α)) (t : (ℕ × ℕ) → α), (d.map Prod.fst).Nodup → ∀ p,
      (d.foldl (fun t kv => npPutEq t image kv.1 kv.2) t) p =
        match assocLookup d (image p) with
        | some v => v
        | none => t p := by
  intro d
  induction d with
  | nil => intro t _ p; rfl
  | cons kv rest ih =>
      intro t hnd p
      rw [List.map_cons] at hnd
      have hnd2 := List.nodup_cons.1 hnd
      rw [List.foldl_cons, ih _ hnd2.2 p]
      by_cases hk : image p = kv.1
      · have hnone : assocLookup rest (image p) = none :=
          assocLookup_eq_none rest (image p) (by rw [hk]; exact hnd2.1)
        rw [hk] at hnone
        simp [assocLookup, hnone, npPutEq, hk]
      · have hk2 : ¬ (kv.1 = image p) := fun hh => hk hh.symm
        cases hrest : assocLookup rest (image p) with
        | none => simp [assocLookup, hrest, npPutEq, hk, hk2]
        | some v => simp [assocLookup, hrest, npPutEq, hk, hk2]

/-- C10: `map_values` does not mutate the input (second component of the
embedded result) and returns an array where every entry equal to a
dictionary key is replaced by that key's value and every other entry is
unchanged; the substitution reads the original array throughout, so a
swapping dictionary exchanges the two values. -/
theorem map_values_spec {α : Type} [DecidableEq α] (image : (ℕ × ℕ) → α)
    (dictionary : List (α × α)) (h : (dictionary.map Prod.fst).Nodup) :
    (map_values image dictionary).2 = image ∧
      ∀ p, (map_values image dictionary).1 p =
        match assocLookup dictionary (image p) with
        | some v => v
        | none => image p :=
  ⟨rfl, fun p => foldl_npPutEq image dictionary (npCopy image) h p⟩

/-- Witness for C10: on the two-pixel label map (0, 1), the swapping
dictionary {0: 1, 1: 0} exchanges the two labels simultaneously, and the
input map is returned untouched. -/
theorem map_values_spec_witness :
    (map_values labelMap1 swapDict).1 (0, 0) = 1 ∧
      (map_values labelMap1 swapDict).1 (0, 1) = 0 ∧
      (map_values labelMap1 swapDict).2 = labelMap1 := by
  have h := map_values_spec labelMap1 swapDict (by decide)
  refine ⟨?_, ?_, h.1⟩
  · rw [h.2 (0, 0)]; decide
  · rw [h.2 (0, 1)]; decide

/-! ## Helper lemmas for the pen mask: the saturated growth equals
4-connected reachability inside the pen-colour mask -/

theorem mem_expand (img : Image) (s : Finset (ℕ × ℕ)) (x : ℕ × ℕ) :
    x ∈ expand img s ↔
      x ∈ s ∨ (x ∈ penPts img ∧ ∃ p ∈ s, adj4 p x = true) := by
  simp [expand]

theorem subset_expand (img : Image) (s : Finset (ℕ × ℕ)) : s ⊆ expand img s :=
  Finset.subset_union_left

theorem iterate_subset_insert (img : Image) (q : ℕ × ℕ) :
    ∀ k, (expand img)^[k] {q} ⊆ insert q (penPts img) := by
  intro k
  induction k with
  | zero => simp
  | succ k ih =>
      rw [Function.iterate_succ_apply']
      intro x hx
      rcases (mem_expand img _ x).1 hx with hx1 | ⟨hpen, _⟩
      · exact ih hx1
      · exact Finset.mem_insert_of_mem hpen

theorem mem_iterate_reach (img : Image) (q : ℕ × ℕ) :
    ∀ (k : ℕ) (x : ℕ × ℕ), x ∈ (expand img)^[k] {q} → penReach img q x := by
  intro k
  induction k with
  | zero =>
      intro x hx
      rw [Function.iterate_zero_apply, Finset.mem_singleton] at hx
      exact hx ▸ Relation.ReflTransGen.refl
  | succ k ih =>
      intro x hx
      rw [Function.iterate_succ_apply'] at hx
      rcases (mem_expand img _ x).1 hx with hx1 | ⟨hpen, p, hp, hadj⟩
      · exact ih x hx1
      · exact (ih p hp).tail ⟨hpen, hadj⟩

theorem mem_self_iterate (img : Image) (q : ℕ × ℕ) (k : ℕ) :
    q ∈ (expand img)^[k] {q} := by
  induction k with
  | zero => simp
  | succ k ih =>
      rw [Function.iterate_succ_apply']
      exact subset_expand img _ ih

theorem expand_of_penPts_subset (img : Image) (s : Finset (ℕ × ℕ))
    (hs : penPts img ⊆ s) : expand img s = s := by
  apply Finset.Subset.antisymm
  · intro x hx
    rcases (mem_expand img s x).1 hx with h | ⟨hpen, _⟩
    · exact h
    · exact hs hpen
  · exact subset_expand img s

theorem grid_card (img : Image) : (grid img).card = img.H * img.W := by
  simp [grid]

theorem iterate_fixpoint (img : Image) (q : ℕ × ℕ) :
    expand img ((expand img)^[img.H * img.W] {q}) =
      (expand img)^[img.H * img.W] {q} := by
  have key : ∀ k, expand img ((expand img)^[k] {q}) = (expand img)^[k] {q} ∨
      k + 1 ≤ ((expand img)^[k] {q}).card := by
    intro k
    induction k with
    | zero => right; simp
    | succ k ih =>
        by_cases hfx : expand img ((expand img)^[k] {q}) = (expand img)^[k] {q}
        · left
          rw [Function.iterate_succ_apply', hfx, hfx]
        · rcases ih with hfix | hcard
          · exact absurd hfix hfx
          · right
            have hss : (expand img)^[k] {q} ⊂ (expand img)^[k+1] {q} := by
              rw [Function.iterate_succ_apply']
              exact Finset.ssubset_iff_subset_ne.2
                ⟨subset_expand img _, fun he => hfx he.symm⟩
            have hlt := Finset.card_lt_card hss
            omega
  rcases key (img.H * img.W) with hfix | hcard
  · exact hfix
  · have hsub := iterate_subset_insert img q (img.H * img.W)
    have hb := Finset.card_le_card hsub
    have hcard2 := Finset.card_insert_le q (penPts img)
    have hpen_le : (penPts img).card ≤ (grid img).card :=
      Finset.card_le_card (Finset.filter_subset _ _)
    have hgrid := grid_card img
    have heq : (expand img)^[img.H * img.W] {q} = insert q (penPts img) :=
      Finset.eq_of_subset_of_card_le hsub (by omega)
    rw [heq]
    exact expand_of_penPts_subset img _ (fun x hx => Finset.mem_insert_of_mem hx)

theorem reach_mem_comp (img : Image) (q x : ℕ × ℕ) (h : penReach img q x) :
    x ∈ comp img q := by
  induction h with
  | refl => exact mem_self_iterate img q _
  | tail hab hbc ih =>
      have hmem := (mem_expand img ((expand img)^[img.H * img.W] {q}) _).2
        (Or.inr ⟨hbc.1, _, ih, hbc.2⟩)
      rw [iterate_fixpoint img q] at hmem
      exact hmem

/-- C8: `basic_pen_mask` is true at `p` exactly when some in-grid pixel `q`
within Euclidean distance `r` of `p` passes the pen-colour test and lies in
a connected component of at least `pen_size_threshold` pixels - so every
sufficiently large flagged component is marked together with its disk halo,
components strictly smaller than the threshold are entirely suppressed, and
components of exactly the threshold size survive.  The second conjunct
identifies the computed component of `q` with 4-connected reachability from
`q` inside the pen-colour mask. -/
theorem basic_pen_mask_characterization (img : Image) (thr r : ℕ) :
    (∀ p, basic_pen_mask img thr r p = true ↔
        ∃ q ∈ grid img, dist2 p q ≤ (r : ℤ) ^ 2 ∧ masked_pen img q = true ∧
          thr ≤ (comp img q).card) ∧
      ∀ q x, x ∈ comp img q ↔ penReach img q x := by
  constructor
  · intro p
    simp [basic_pen_mask, remove_small_objects, and_assoc]
  · intro q x
    exact ⟨fun hx => mem_iterate_reach img q (img.H * img.W) x hx,
      fun hr => reach_mem_comp img q x hr⟩
